import Mathlib

/-!
Shallow embedding of the batched-persistence core of RechazoMiner
(`src/miner.py`): the record decoder `_parse_tweet`, the enqueue callback
`on_status`, the flush routine `_write_backlog_to_disk`, and the consumer
loop `_process_loop` of `AsyncDiskWriteListener`.

Modelling choices, each justified against the source:
* 64-bit Twitter ids are opaque keys (no arithmetic is performed on them),
  so they are modelled as `Nat`.
* `datetime` values are opaque timestamps, modelled as `Nat`.
* A pandas `DataFrame` with a key index is modelled as a `List` of rows in
  frame order; its key column is the `List.map key` image.
* A Python `dict` (the backlog) is an insertion-ordered association list:
  updating an existing key rewrites the value in place, a new key is
  appended at the end, exactly as CPython dicts behave; `dict.values()`
  is `List.map Prod.snd`.
* Duck-typed optional attributes (`hasattr` guards in `_parse_tweet`,
  `retweeted_status` / `quoted_status` / `extended_tweet` presence checks)
  are modelled as `Option` fields; `none` means the attribute is absent,
  and Python `None` (the value substituted for a missing attribute) is
  modelled as `none` as well.
* Fallible steps of `_write_backlog_to_disk` return `Except`: building a
  `DataFrame` from an empty collection and setting its key index raises a
  `KeyError` (the empty frame has no columns); each `to_parquet` call may
  raise an I/O error, driven here by an explicit fault oracle, since disk
  behaviour is outside the program.
-/

set_option maxHeartbeats 1000000

namespace RechazoMiner

/-- `TweetRecord` from `miner.py` (NamedTuple): the typed record of one tweet. -/
structure TweetRecord where
  tweet_id : Nat
  full_text : String
  user_id : Nat
  date : Nat
  hashtags : List String
  retweets : Nat
  likes : Nat
  replies : Nat
  deriving DecidableEq

/-- `UserRecord` from `miner.py` (NamedTuple): the typed record of one user.
`location`, `url` and `description` receive Python `None` (here `none`) when
the corresponding raw attribute is missing. -/
structure UserRecord where
  user_id : Nat
  name : String
  screen_name : String
  location : Option String
  url : Option String
  verified : Bool
  description : Option String
  following : Nat
  followers : Nat
  tweets : Nat
  created : Nat
  deriving DecidableEq

/-- The raw `user` object attached to a `tweepy.Status`.  The attributes read
with a `hasattr` guard in `_parse_tweet` are `Option`-valued (`none` models a
missing attribute); the rest are read unconditionally. -/
structure RawUser where
  id : Nat
  name : String
  screen_name : String
  location : Option String
  url : Option String
  verified : Bool
  description : Option String
  friends_count : Nat
  followers_count : Nat
  statuses_count : Nat
  created_at : Nat
  deriving DecidableEq

/-- The non-wrapper attributes of a raw `tweepy.Status` read by
`_parse_tweet`.  `extended_tweet` is `some t` when the status has an
`extended_tweet` attribute with full text `t`; `entities_hashtags` is the
list of hashtag texts under `entities['hashtags']` when present
(`tweet.entities.get('hashtags', [])` defaults to the empty list). -/
structure StatusCore where
  id : Nat
  text : String
  extended_tweet : Option String
  user : RawUser
  created_at : Nat
  entities_hashtags : Option (List String)
  retweet_count : Nat
  favorite_count : Nat
  reply_count : Nat
  deriving DecidableEq

/-- A raw `tweepy.Status`: its own attributes plus the optional
`retweeted_status` (reshare target) and `quoted_status` (quote target)
wrapper attributes, which are themselves statuses. -/
inductive Status : Type where
  | mk (core : StatusCore) (retweeted_status : Option Status)
      (quoted_status : Option Status)

/-- The non-wrapper attributes of a status. -/
def Status.core : Status → StatusCore
  | .mk c _ _ => c

/-- The `retweeted_status` attribute (`none` when absent). -/
def Status.retweeted_status : Status → Option Status
  | .mk _ r _ => r

/-- The `quoted_status` attribute (`none` when absent). -/
def Status.quoted_status : Status → Option Status
  | .mk _ _ q => q

/-- `AsyncDiskWriteListener._parse_tweet` (miner.py lines 192-228): decode one
raw status into a `(TweetRecord, UserRecord)` pair.  Every optional attribute
is read behind the source's `hasattr` guard (or `.get` default), which is why
the function is total: a missing optional attribute yields Python `None`
(modelled `none`) or the empty hashtag list, never an exception. -/
def parse_tweet (tweet : Status) : TweetRecord × UserRecord :=
  let c := tweet.core
  let u := c.user
  ({ tweet_id := c.id
     full_text := match c.extended_tweet with
       | some t => t
       | none => c.text
     user_id := u.id
     date := c.created_at
     hashtags := c.entities_hashtags.getD []
     retweets := c.retweet_count
     likes := c.favorite_count
     replies := c.reply_count },
   { user_id := u.id
     name := u.name
     screen_name := u.screen_name
     location := u.location
     url := u.url
     verified := u.verified
     description := u.description
     following := u.friends_count
     followers := u.followers_count
     tweets := u.statuses_count
     created := u.created_at })

/-- The tweet id produced by decoding a status. -/
def parseId (s : Status) : Nat := (parse_tweet s).1.tweet_id

/-- `AsyncDiskWriteListener.on_status` (miner.py lines 230-238): the raw
statuses appended to the ingestion queue `self._write_q` when one status is
delivered.  A reshare enqueues only the target; a quote enqueues the wrapper
and then the target; an ordinary status enqueues itself. -/
def on_status (q : List Status) (tweet : Status) : List Status :=
  match tweet.retweeted_status with
  | some rt => q ++ [rt]
  | none =>
    match tweet.quoted_status with
    | some qs => q ++ [tweet, qs]
    | none => q ++ [tweet]

/-- An item placed on the (untyped) Python ingestion queue: either a raw
status, or a decoded record pair.  The source only ever puts raw statuses;
the spec's description of the queue contents is compared against this type. -/
inductive QItem : Type where
  | raw (s : Status)
  | decoded (t : TweetRecord) (u : UserRecord)

/-- Whether a queue item is a raw (undecoded) status. -/
def QItem.isRaw : QItem → Bool
  | .raw _ => true
  | .decoded _ _ => false

/-- The items `on_status` puts on the ingestion queue for one delivered
status, as queue items: `self._write_q.put` is always applied to a raw
`tweepy.Status` value in the source. -/
def enqueued_items (tweet : Status) : List QItem :=
  (on_status [] tweet).map QItem.raw

/-- Follows the spec's words, for comparison with `enqueued_items`:
"each decoded record is appended to the Ingestion Queue" — decoding applied
in the delivery context, so the queue holds decoded records. -/
def spec_enqueued_items (tweet : Status) : List QItem :=
  (on_status [] tweet).map
    (fun s => QItem.decoded (parse_tweet s).1 (parse_tweet s).2)

/-- Python-`dict` upsert on an insertion-ordered association list: an
existing key keeps its position and gets the new value; a new key is
appended at the end (`backlog_tweets[tweet.tweet_id] = tweet`). -/
def dictUpsert (k : Nat) (v : α) : List (Nat × α) → List (Nat × α)
  | [] => [(k, v)]
  | (k', v') :: rest =>
    if k' = k then (k, v) :: rest else (k', v') :: dictUpsert k v rest

/-- First-biased choice between two optional rows: the left value when
present, otherwise the right.  Used to state the merge semantics of a flush
(stored row first, backlog row second). -/
def optFirst (a b : Option α) : Option α :=
  match a with
  | some x => some x
  | none => b

/-- First row of a keyed table whose key equals `k` (pandas row selection by
index label; on a deduplicated frame, the unique such row). -/
def tableLookup (key : α → Nat) (k : Nat) : List α → Option α
  | [] => none
  | x :: xs => if key x = k then some x else tableLookup key k xs

/-- Worker for `drop_duplicates`: keep each row whose key has not been seen
before (pandas keeps the first occurrence by default). -/
def dropDupAux (key : α → Nat) (seen : List Nat) : List α → List α
  | [] => []
  | x :: xs =>
    if key x ∈ seen then dropDupAux key seen xs
    else x :: dropDupAux key (key x :: seen) xs

/-- `DataFrame.drop_duplicates(subset=key)` with the default `keep='first'`:
of all rows sharing a key, only the first in frame order survives. -/
def drop_duplicates (key : α → Nat) (l : List α) : List α :=
  dropDupAux key [] l

/-- One table merge of `_write_backlog_to_disk`:
`pd.concat((saved, chunk)).reset_index().drop_duplicates(subset=key)
.set_index(key, verify_integrity=True)`.  Saved rows precede chunk rows in
the concatenation, so `drop_duplicates` keeps the saved row for an
overlapping key.  The `verify_integrity` check never fires because the frame
was just deduplicated on the key. -/
def mergeTable (key : α → Nat) (saved chunk : List α) : List α :=
  drop_duplicates key (saved ++ chunk)

/-- Errors `_write_backlog_to_disk` can raise: the pandas `KeyError` from
`set_index` on a frame built from an empty collection (the frame has no
columns), and an I/O error from `to_parquet`. -/
inductive WriteError : Type where
  | keyError (col : String)
  | ioError
  deriving DecidableEq

/-- The two in-memory persisted tables of the listener
(`self._saved_tweet_data`, `self._saved_user_data`), mirrored to the two
parquet files on every flush. -/
structure StoreState where
  saved_tweet_data : List TweetRecord
  saved_user_data : List UserRecord
  deriving DecidableEq

/-- `AsyncDiskWriteListener._write_backlog_to_disk` (miner.py lines 133-155).
Order of effects follows the source: both chunk frames are built (and key-
indexed) first, so an empty collection raises before anything is merged;
then the tweet table is merged and written, then the user table.
`ioFailTweets` / `ioFailUsers` say whether the respective `to_parquet` call
raises an I/O error. -/
def write_backlog_to_disk (ioFailTweets ioFailUsers : Bool) (st : StoreState)
    (tweets : List TweetRecord) (users : List UserRecord) :
    Except WriteError StoreState :=
  if tweets.isEmpty then .error (.keyError "tweet_id")
  else if users.isEmpty then .error (.keyError "user_id")
  else
    let newTweets :=
      mergeTable TweetRecord.tweet_id st.saved_tweet_data tweets
    if ioFailTweets then .error .ioError
    else
      let newUsers :=
        mergeTable UserRecord.user_id st.saved_user_data users
      if ioFailUsers then .error .ioError
      else .ok ⟨newTweets, newUsers⟩

/-- State of the consumer loop `_process_loop`: the persisted store, the two
keyed backlog dicts (`backlog_tweets`, `backlog_users`), and the number of
flushes performed so far (used to index the I/O fault oracle). -/
structure LoopState where
  store : StoreState
  backlog_tweets : List (Nat × TweetRecord)
  backlog_users : List (Nat × UserRecord)
  flushes : Nat
  deriving DecidableEq

/-- Outcome of the `n`-th flush's two `to_parquet` calls under the fault
oracle `faults` (`(tweet write fails, user write fails)`); flushes beyond
the oracle's length succeed. -/
def faultAt (faults : List (Bool × Bool)) (n : Nat) : Bool × Bool :=
  faults.getD n (false, false)

/-- The RUNNING phase of `_process_loop` (miner.py lines 161-180): `inputs`
is the sequence of raw statuses dequeued from `self._write_q` while the
running flag stays set (empty polls are no-ops and elided).  Each status is
decoded with `_parse_tweet` at dequeue, upserted into both backlogs, and
when `max(len(backlog_tweets), len(backlog_users)) >= backlog_sz` the
backlog is flushed and cleared.  An exception raised by the flush escapes
the loop (only `queue.Empty` is caught inside it). -/
def runRecords (sz : Nat) (faults : List (Bool × Bool)) :
    LoopState → List Status → Except WriteError LoopState
  | s, [] => .ok s
  | s, tw :: rest =>
    let tu := parse_tweet tw
    let bt := dictUpsert tu.1.tweet_id tu.1 s.backlog_tweets
    let bu := dictUpsert tu.2.user_id tu.2 s.backlog_users
    if max bt.length bu.length ≥ sz then
      match write_backlog_to_disk (faultAt faults s.flushes).1
          (faultAt faults s.flushes).2 s.store
          (bt.map Prod.snd) (bu.map Prod.snd) with
      | .error e => .error e
      | .ok st' => runRecords sz faults ⟨st', [], [], s.flushes + 1⟩ rest
    else
      runRecords sz faults ⟨s.store, bt, bu, s.flushes⟩ rest

/-- The DRAINING phase of `_process_loop` (miner.py lines 182-189), run once
after the running flag is cleared: flush whatever remains in the backlog,
skipping the flush entirely when both backlogs are empty. -/
def drain (faults : List (Bool × Bool)) (s : LoopState) :
    Except WriteError LoopState :=
  if max s.backlog_tweets.length s.backlog_users.length > 0 then
    match write_backlog_to_disk (faultAt faults s.flushes).1
        (faultAt faults s.flushes).2 s.store
        (s.backlog_tweets.map Prod.snd) (s.backlog_users.map Prod.snd) with
    | .error e => .error e
    | .ok st' => .ok ⟨st', [], [], s.flushes + 1⟩
  else .ok s

/-- The whole `_process_loop` body (miner.py lines 157-190), from empty
backlogs: the RUNNING phase over the records dequeued before shutdown,
then the final DRAINING flush.  The result is the loop state at thread
exit, or the exception that escaped the loop. -/
def process_loop (sz : Nat) (faults : List (Bool × Bool)) (st : StoreState)
    (inputs : List Status) : Except WriteError LoopState :=
  match runRecords sz faults ⟨st, [], [], 0⟩ inputs with
  | .error e => .error e
  | .ok s => drain faults s

/-- The value `_parse_tweet` substitutes for a missing optional attribute:
Python `None`. -/
def unknown_sentinel : Option String := none

/-- A concrete raw user with every optional attribute missing. -/
def sampleRawUser : RawUser :=
  ⟨10, "alice", "alice_sc", none, none, false, none, 1, 2, 3, 4⟩

/-- A concrete raw user with id 20. -/
def sampleRawUser2 : RawUser :=
  ⟨20, "bob", "bob_sc", some "here", some "u", true, some "d", 5, 6, 7, 8⟩

/-- A concrete ordinary status (no wrapper attributes), id 1. -/
def sampleCore : StatusCore :=
  ⟨1, "hello", none, sampleRawUser, 100, none, 0, 0, 0⟩

/-- A concrete ordinary status core, id 2. -/
def sampleCore2 : StatusCore :=
  ⟨2, "world", some "world extended", sampleRawUser2, 200, some ["tag"], 1, 2, 3⟩

/-- A concrete wrapper core, id 99. -/
def sampleCore99 : StatusCore :=
  ⟨99, "RT", none, sampleRawUser2, 300, none, 0, 0, 0⟩

/-- A concrete ordinary status, id 1. -/
def sampleStatus : Status := .mk sampleCore none none

/-- A concrete ordinary status, id 2. -/
def sampleStatus2 : Status := .mk sampleCore2 none none

/-- A concrete reshare wrapper (id 99) whose target is `sampleStatus`. -/
def sampleRetweet : Status := .mk sampleCore99 (some sampleStatus) none

/-- A concrete stored tweet row with key 1 and payload "old". -/
def storedTweetRow : TweetRecord := ⟨1, "old", 10, 0, [], 0, 0, 0⟩

/-- A concrete backlog tweet row with the same key 1 but payload "new". -/
def backlogTweetRow : TweetRecord := ⟨1, "new", 10, 0, [], 0, 0, 0⟩

/-- A concrete user row with key 10. -/
def sampleUserRow : UserRecord :=
  ⟨10, "alice", "alice_sc", none, none, false, none, 1, 2, 3, 4⟩

/-! ### Helper lemmas about the backlog dict -/

theorem dictUpsert_ne_nil (k : Nat) (v : α) (d : List (Nat × α)) :
    dictUpsert k v d ≠ [] := by
  cases d with
  | nil => simp [dictUpsert]
  | cons hd tl =>
    obtain ⟨k', v'⟩ := hd
    unfold dictUpsert
    split <;> simp

theorem dictUpsert_keys_mem (k k' : Nat) (v : α) (d : List (Nat × α)) :
    k' ∈ (dictUpsert k v d).map Prod.fst ↔
      k' = k ∨ k' ∈ d.map Prod.fst := by
  induction d with
  | nil => simp [dictUpsert]
  | cons hd tl ih =>
    obtain ⟨a, b⟩ := hd
    unfold dictUpsert
    by_cases h : a = k
    · subst h
      simp
    · simp only [if_neg h, List.map_cons, List.mem_cons, ih]
      tauto

theorem dictUpsert_length (k : Nat) (v : α) (d : List (Nat × α)) :
    (dictUpsert k v d).length =
      if k ∈ d.map Prod.fst then d.length else d.length + 1 := by
  induction d with
  | nil => simp [dictUpsert]
  | cons hd tl ih =>
    obtain ⟨a, b⟩ := hd
    unfold dictUpsert
    by_cases h : a = k
    · subst h
      simp
    · have h' : ¬ k = a := fun hk => h hk.symm
      simp only [if_neg h, List.length_cons, List.map_cons, List.mem_cons,
        h', false_or, ih]
      split <;> rfl

theorem dictUpsert_length_le (k : Nat) (v : α) (d : List (Nat × α)) :
    (dictUpsert k v d).length ≤ d.length + 1 := by
  rw [dictUpsert_length]
  split <;> omega

theorem dictUpsert_not_mem (k : Nat) (v : α) (d : List (Nat × α))
    (h : k ∉ d.map Prod.fst) : dictUpsert k v d = d ++ [(k, v)] := by
  induction d with
  | nil => simp [dictUpsert]
  | cons hd tl ih =>
    obtain ⟨a, b⟩ := hd
    simp only [List.map_cons, List.mem_cons, not_or] at h
    unfold dictUpsert
    rw [if_neg (fun hk => h.1 hk.symm), ih h.2]
    simp

/-! ### Helper lemmas about table lookup and deduplication -/

theorem tableLookup_cons (key : α → Nat) (k : Nat) (x : α) (xs : List α) :
    tableLookup key k (x :: xs) =
      if key x = k then some x else tableLookup key k xs := rfl

theorem tableLookup_append (key : α → Nat) (k : Nat) (a b : List α) :
    tableLookup key k (a ++ b) =
      optFirst (tableLookup key k a) (tableLookup key k b) := by
  induction a with
  | nil => simp [tableLookup, optFirst]
  | cons x xs ih =>
    rw [List.cons_append, tableLookup_cons, tableLookup_cons]
    by_cases h : key x = k
    · simp [h, optFirst]
    · rw [if_neg h, if_neg h, ih]

theorem tableLookup_isSome (key : α → Nat) (k : Nat) (l : List α) :
    (tableLookup key k l).isSome = true ↔ k ∈ l.map key := by
  induction l with
  | nil => simp [tableLookup]
  | cons x xs ih =>
    unfold tableLookup
    by_cases h : key x = k
    · simp [h]
    · have h' : ¬ k = key x := fun hk => h hk.symm
      simp [h, h', ih]

theorem dropDupAux_lookup (key : α → Nat) (l : List α) :
    ∀ (seen : List Nat) (k : Nat),
    tableLookup key k (dropDupAux key seen l) =
      if k ∈ seen then none else tableLookup key k l := by
  induction l with
  | nil => intro seen k; simp [dropDupAux, tableLookup]
  | cons x xs ih =>
    intro seen k
    unfold dropDupAux
    by_cases hx : key x ∈ seen
    · rw [if_pos hx, ih]
      by_cases hk : k ∈ seen
      · simp [hk]
      · have hne : ¬ key x = k := fun h => hk (h ▸ hx)
        simp [hk, tableLookup, hne]
    · rw [if_neg hx]
      unfold tableLookup
      by_cases hxk : key x = k
      · subst hxk
        simp [hx]
      · rw [if_neg hxk, ih]
        by_cases hk : k ∈ seen
        · have : k ∈ key x :: seen := List.mem_cons_of_mem _ hk
          simp [hk, this]
        · have : k ∉ key x :: seen := by
            simp only [List.mem_cons, not_or]
            exact ⟨fun h => hxk h.symm, hk⟩
          simp [hk, this, hxk]

theorem dropDupAux_keys_nodup (key : α → Nat) (l : List α) :
    ∀ seen : List Nat,
    ((dropDupAux key seen l).map key).Nodup ∧
      ∀ k ∈ (dropDupAux key seen l).map key, k ∉ seen := by
  induction l with
  | nil => intro seen; simp [dropDupAux]
  | cons x xs ih =>
    intro seen
    unfold dropDupAux
    by_cases hx : key x ∈ seen
    · rw [if_pos hx]
      exact ih seen
    · rw [if_neg hx]
      obtain ⟨hnd, hmem⟩ := ih (key x :: seen)
      refine ⟨?_, ?_⟩
      · simp only [List.map_cons, List.nodup_cons]
        exact ⟨fun h => (hmem _ h) (List.mem_cons_self _ _), hnd⟩
      · intro k hk
        simp only [List.map_cons, List.mem_cons] at hk
        rcases hk with rfl | hk
        · exact hx
        · exact fun h => (hmem _ hk) (List.mem_cons_of_mem _ h)

theorem drop_duplicates_lookup (key : α → Nat) (l : List α) (k : Nat) :
    tableLookup key k (drop_duplicates key l) = tableLookup key k l := by
  rw [drop_duplicates, dropDupAux_lookup]
  simp

theorem mergeTable_lookup (key : α → Nat) (s c : List α) (k : Nat) :
    tableLookup key k (mergeTable key s c) =
      optFirst (tableLookup key k s) (tableLookup key k c) := by
  rw [mergeTable, drop_duplicates_lookup, tableLookup_append]

theorem mergeTable_mem (key : α → Nat) (s c : List α) (k : Nat) :
    k ∈ (mergeTable key s c).map key ↔
      k ∈ s.map key ∨ k ∈ c.map key := by
  rw [← tableLookup_isSome, mergeTable_lookup, ← tableLookup_isSome,
    ← tableLookup_isSome]
  cases tableLookup key k s <;> simp [optFirst]

theorem mergeTable_keys_nodup (key : α → Nat) (s c : List α) :
    ((mergeTable key s c).map key).Nodup :=
  (dropDupAux_keys_nodup key (s ++ c) []).1

/-! ### Helper lemmas about the flush routine -/

theorem write_backlog_ok_inv (ioT ioU : Bool) (st : StoreState)
    (tweets : List TweetRecord) (users : List UserRecord) (st' : StoreState)
    (h : write_backlog_to_disk ioT ioU st tweets users = .ok st') :
    st' = ⟨mergeTable TweetRecord.tweet_id st.saved_tweet_data tweets,
           mergeTable UserRecord.user_id st.saved_user_data users⟩ := by
  simp only [write_backlog_to_disk] at h
  by_cases h1 : tweets.isEmpty
  · rw [if_pos h1] at h
    exact Except.noConfusion h
  rw [if_neg h1] at h
  by_cases h2 : users.isEmpty
  · rw [if_pos h2] at h
    exact Except.noConfusion h
  rw [if_neg h2] at h
  by_cases h3 : ioT = true
  · rw [if_pos h3] at h
    exact Except.noConfusion h
  rw [if_neg h3] at h
  by_cases h4 : ioU = true
  · rw [if_pos h4] at h
    exact Except.noConfusion h
  rw [if_neg h4] at h
  injection h with h'
  exact h'.symm

theorem write_backlog_ok_of (st : StoreState) (tweets : List TweetRecord)
    (users : List UserRecord) (ht : tweets ≠ []) (hu : users ≠ []) :
    write_backlog_to_disk false false st tweets users =
      .ok ⟨mergeTable TweetRecord.tweet_id st.saved_tweet_data tweets,
           mergeTable UserRecord.user_id st.saved_user_data users⟩ := by
  have h1 : tweets.isEmpty = false := by
    rw [← Bool.not_eq_true, List.isEmpty_iff]
    exact ht
  have h2 : users.isEmpty = false := by
    rw [← Bool.not_eq_true, List.isEmpty_iff]
    exact hu
  simp [write_backlog_to_disk, h1, h2]

theorem write_backlog_error_io (ioT ioU : Bool) (st : StoreState)
    (tweets : List TweetRecord) (users : List UserRecord) (e : WriteError)
    (ht : tweets ≠ []) (hu : users ≠ [])
    (h : write_backlog_to_disk ioT ioU st tweets users = .error e) :
    e = .ioError := by
  have h1 : tweets.isEmpty = false := by
    rw [← Bool.not_eq_true, List.isEmpty_iff]
    exact ht
  have h2 : users.isEmpty = false := by
    rw [← Bool.not_eq_true, List.isEmpty_iff]
    exact hu
  simp only [write_backlog_to_disk, h1, h2, Bool.false_eq_true, if_false] at h
  by_cases h3 : ioT = true
  · rw [if_pos h3] at h
    injection h with h'
    exact h'.symm
  rw [if_neg h3] at h
  by_cases h4 : ioU = true
  · rw [if_pos h4] at h
    injection h with h'
    exact h'.symm
  rw [if_neg h4] at h
  exact Except.noConfusion h

/-! ### Helper lemmas about the consumer loop -/

theorem runRecords_nil (sz : Nat) (faults : List (Bool × Bool))
    (s : LoopState) : runRecords sz faults s [] = .ok s := rfl

theorem runRecords_cons (sz : Nat) (faults : List (Bool × Bool))
    (s : LoopState) (tw : Status) (rest : List Status) :
    runRecords sz faults s (tw :: rest) =
      (let tu := parse_tweet tw
       let bt := dictUpsert tu.1.tweet_id tu.1 s.backlog_tweets
       let bu := dictUpsert tu.2.user_id tu.2 s.backlog_users
       if max bt.length bu.length ≥ sz then
         match write_backlog_to_disk (faultAt faults s.flushes).1
             (faultAt faults s.flushes).2 s.store
             (bt.map Prod.snd) (bu.map Prod.snd) with
         | .error e => .error e
         | .ok st' => runRecords sz faults ⟨st', [], [], s.flushes + 1⟩ rest
       else
         runRecords sz faults ⟨s.store, bt, bu, s.flushes⟩ rest) := rfl

theorem runRecords_append (sz : Nat) (faults : List (Bool × Bool)) :
    ∀ (a b : List Status) (s : LoopState),
    runRecords sz faults s (a ++ b) =
      match runRecords sz faults s a with
      | .error e => .error e
      | .ok s' => runRecords sz faults s' b := by
  intro a
  induction a with
  | nil => intro b s; rfl
  | cons tw rest ih =>
    intro b s
    rw [List.cons_append, runRecords_cons, runRecords_cons]
    simp only
    split
    · cases hw : write_backlog_to_disk (faultAt faults s.flushes).1
          (faultAt faults s.flushes).2 s.store
          ((dictUpsert (parse_tweet tw).1.tweet_id (parse_tweet tw).1
            s.backlog_tweets).map Prod.snd)
          ((dictUpsert (parse_tweet tw).2.user_id (parse_tweet tw).2
            s.backlog_users).map Prod.snd) with
      | error e => rfl
      | ok st' => exact ih b ⟨st', [], [], s.flushes + 1⟩
    · exact ih b _

theorem runRecords_error_io (sz : Nat) (faults : List (Bool × Bool)) :
    ∀ (inputs : List Status) (s : LoopState) (e : WriteError),
    runRecords sz faults s inputs = .error e → e = .ioError := by
  intro inputs
  induction inputs with
  | nil => intro s e h; exact Except.noConfusion h
  | cons tw rest ih =>
    intro s e h
    rw [runRecords_cons] at h
    simp only at h
    split at h
    · split at h
      case _ e' heq =>
        injection h with h'
        subst h'
        exact write_backlog_error_io _ _ _ _ _ _
          (by simp [List.map_eq_nil_iff, dictUpsert_ne_nil])
          (by simp [List.map_eq_nil_iff, dictUpsert_ne_nil]) heq
      case _ st' heq => exact ih _ _ h
    · exact ih _ _ h

theorem runRecords_empty_iff (sz : Nat) (faults : List (Bool × Bool)) :
    ∀ (inputs : List Status) (s s' : LoopState),
    runRecords sz faults s inputs = .ok s' →
    (s.backlog_tweets = [] ↔ s.backlog_users = []) →
    (s'.backlog_tweets = [] ↔ s'.backlog_users = []) := by
  intro inputs
  induction inputs with
  | nil =>
    intro s s' h hiff
    injection h with h'
    rw [← h']
    exact hiff
  | cons tw rest ih =>
    intro s s' h hiff
    rw [runRecords_cons] at h
    simp only at h
    split at h
    · split at h
      case _ e' heq => exact Except.noConfusion h
      case _ st' heq => exact ih _ _ h (by simp)
    · refine ih _ _ h ?_
      constructor
      · intro hbt
        exact absurd hbt (dictUpsert_ne_nil _ _ _)
      · intro hbu
        exact absurd hbu (dictUpsert_ne_nil _ _ _)

theorem drain_empty_backlog (faults : List (Bool × Bool)) (st : StoreState)
    (f : Nat) : drain faults ⟨st, [], [], f⟩ = .ok ⟨st, [], [], f⟩ := by
  simp [drain]

theorem drain_error_io (faults : List (Bool × Bool)) (s : LoopState)
    (e : WriteError)
    (hiff : s.backlog_tweets = [] ↔ s.backlog_users = [])
    (h : drain faults s = .error e) : e = .ioError := by
  unfold drain at h
  split at h
  case _ hpos =>
    have hbt : s.backlog_tweets ≠ [] := by
      intro hbt
      rw [hbt, hiff.mp hbt] at hpos
      simp at hpos
    have hbu : s.backlog_users ≠ [] := fun hbu =>
      hbt (hiff.mpr hbu)
    split at h
    case _ e' heq =>
      injection h with h'
      subst h'
      exact write_backlog_error_io _ _ _ _ _ _
        (by simp [List.map_eq_nil_iff, hbt])
        (by simp [List.map_eq_nil_iff, hbu]) heq
    case _ st' heq => exact Except.noConfusion h
  case _ hpos => exact Except.noConfusion h

theorem runRecords_below (sz : Nat) (faults : List (Bool × Bool)) :
    ∀ (inputs : List Status) (st : StoreState)
      (bt : List (Nat × TweetRecord)) (bu : List (Nat × UserRecord)) (f : Nat),
    (inputs.map parseId).Nodup →
    (∀ s ∈ inputs, parseId s ∉ bt.map Prod.fst) →
    bt.length + inputs.length < sz →
    bu.length ≤ bt.length →
    ∃ bu' : List (Nat × UserRecord),
      runRecords sz faults ⟨st, bt, bu, f⟩ inputs =
        .ok ⟨st, bt ++ inputs.map (fun s => (parseId s, (parse_tweet s).1)),
             bu', f⟩ ∧
      bu'.length ≤ bt.length + inputs.length ∧
      (bu'.length = 0 → bu.length = 0 ∧ inputs = []) := by
  intro inputs
  induction inputs with
  | nil =>
    intro st bt bu f _ _ _ h4
    exact ⟨bu, by simp [runRecords_nil], by omega, fun h => ⟨h, rfl⟩⟩
  | cons tw rest ih =>
    intro st bt bu f h1 h2 h3 h4
    have hpt : parseId tw ∉ bt.map Prod.fst :=
      h2 tw (List.mem_cons_self _ _)
    have hbt1 : dictUpsert (parse_tweet tw).1.tweet_id (parse_tweet tw).1 bt
        = bt ++ [(parseId tw, (parse_tweet tw).1)] :=
      dictUpsert_not_mem _ _ _ hpt
    have hbt1len : (dictUpsert (parse_tweet tw).1.tweet_id
        (parse_tweet tw).1 bt).length = bt.length + 1 := by
      rw [hbt1]; simp
    have hbu1len : (dictUpsert (parse_tweet tw).2.user_id
        (parse_tweet tw).2 bu).length ≤ bt.length + 1 :=
      le_trans (dictUpsert_length_le _ _ _) (by omega)
    have hrestlen : bt.length + rest.length + 1 < sz := by
      simp only [List.length_cons] at h3
      omega
    have hcond : ¬ (max (dictUpsert (parse_tweet tw).1.tweet_id
        (parse_tweet tw).1 bt).length
        (dictUpsert (parse_tweet tw).2.user_id
          (parse_tweet tw).2 bu).length ≥ sz) := by
      rw [Nat.not_le, Nat.max_lt]
      omega
    simp only [List.map_cons, List.nodup_cons] at h1
    obtain ⟨hnotin, hnd⟩ := h1
    have h2' : ∀ s ∈ rest, parseId s ∉
        (dictUpsert (parse_tweet tw).1.tweet_id (parse_tweet tw).1 bt).map
          Prod.fst := by
      intro s hs
      rw [hbt1]
      simp only [List.map_append, List.mem_append, List.map_cons,
        List.map_nil, List.mem_singleton, not_or]
      refine ⟨h2 s (List.mem_cons_of_mem _ hs), ?_⟩
      intro hEq
      exact hnotin (hEq ▸ List.mem_map_of_mem parseId hs)
    obtain ⟨bu', hrun, hlen, hzero⟩ :=
      ih st (dictUpsert (parse_tweet tw).1.tweet_id (parse_tweet tw).1 bt)
        (dictUpsert (parse_tweet tw).2.user_id (parse_tweet tw).2 bu) f
        hnd h2' (by omega) (by omega)
    refine ⟨bu', ?_, ?_, ?_⟩
    · rw [runRecords_cons]
      simp only
      rw [if_neg hcond, hrun, hbt1]
      simp
    · simp only [List.length_cons]
      omega
    · intro hz
      obtain ⟨hbu1z, _⟩ := hzero hz
      rw [List.length_eq_zero] at hbu1z
      exact absurd hbu1z (dictUpsert_ne_nil _ _ _)

/-! ### Claim C1 -/

/-- Claim C1 counterexample: the claim says that after a flush, a key present
in both the persisted table and the backlog holds the backlog's field values.
Concretely: the store holds row `storedTweetRow` (key 1, payload "old"), the
backlog submits `backlogTweetRow` (key 1, payload "new"); the flush succeeds
and the persisted row for key 1 is still `storedTweetRow`, which differs from
the backlog row — `drop_duplicates` keeps the first (stored) occurrence. -/
theorem c1_counterexample :
    write_backlog_to_disk false false ⟨[storedTweetRow], [sampleUserRow]⟩
        [backlogTweetRow] [sampleUserRow] =
      .ok ⟨[storedTweetRow], [sampleUserRow]⟩ ∧
    tableLookup TweetRecord.tweet_id backlogTweetRow.tweet_id
        [storedTweetRow] = some storedTweetRow ∧
    storedTweetRow ≠ backlogTweetRow :=
  ⟨rfl, rfl, by decide⟩

/-- Claim C1 (amended): after every successful flush, the persisted key set
is the union of the pre-flush key set and the backlog key set; for a key
already present in the persisted table the previously stored row is kept
unchanged (the first occurrence wins), and only keys new to the table
receive the backlog's values. -/
theorem c1_amended_flush_union_stored_wins (ioT ioU : Bool) (st : StoreState)
    (tweets : List TweetRecord) (users : List UserRecord) (st' : StoreState)
    (h : write_backlog_to_disk ioT ioU st tweets users = .ok st') :
    (∀ k, k ∈ st'.saved_tweet_data.map TweetRecord.tweet_id ↔
       k ∈ st.saved_tweet_data.map TweetRecord.tweet_id ∨
       k ∈ tweets.map TweetRecord.tweet_id) ∧
    (∀ k, tableLookup TweetRecord.tweet_id k st'.saved_tweet_data =
       optFirst (tableLookup TweetRecord.tweet_id k st.saved_tweet_data)
         (tableLookup TweetRecord.tweet_id k tweets)) ∧
    (∀ k, k ∈ st'.saved_user_data.map UserRecord.user_id ↔
       k ∈ st.saved_user_data.map UserRecord.user_id ∨
       k ∈ users.map UserRecord.user_id) ∧
    (∀ k, tableLookup UserRecord.user_id k st'.saved_user_data =
       optFirst (tableLookup UserRecord.user_id k st.saved_user_data)
         (tableLookup UserRecord.user_id k users)) := by
  rw [write_backlog_ok_inv ioT ioU st tweets users st' h]
  dsimp only
  exact ⟨fun k => mergeTable_mem _ _ _ k, fun k => mergeTable_lookup _ _ _ k,
    fun k => mergeTable_mem _ _ _ k, fun k => mergeTable_lookup _ _ _ k⟩

/-- Witness for the amended C1 theorem at a concrete flush. -/
theorem c1_amended_witness :
    (1 ∈ ([storedTweetRow] : List TweetRecord).map TweetRecord.tweet_id ↔
      1 ∈ ([storedTweetRow] : List TweetRecord).map TweetRecord.tweet_id ∨
      1 ∈ ([backlogTweetRow] : List TweetRecord).map TweetRecord.tweet_id) :=
  (c1_amended_flush_union_stored_wins false false
    ⟨[storedTweetRow], [sampleUserRow]⟩ [backlogTweetRow] [sampleUserRow]
    ⟨[storedTweetRow], [sampleUserRow]⟩ rfl).1 1

/-! ### Claim C2 -/

/-- Claim C2: after every successful flush, each persisted entity table
(tweets keyed by `tweet_id`, users keyed by `user_id`) contains exactly one
row per distinct key, for every submitted collection and every starting
table contents. -/
theorem c2_one_row_per_key (ioT ioU : Bool) (st : StoreState)
    (tweets : List TweetRecord) (users : List UserRecord) (st' : StoreState)
    (h : write_backlog_to_disk ioT ioU st tweets users = .ok st') :
    (st'.saved_tweet_data.map TweetRecord.tweet_id).Nodup ∧
    (st'.saved_user_data.map UserRecord.user_id).Nodup := by
  rw [write_backlog_ok_inv ioT ioU st tweets users st' h]
  exact ⟨mergeTable_keys_nodup _ _ _, mergeTable_keys_nodup _ _ _⟩

/-- Witness for C2 at a concrete flush (a duplicated key in the submission
still yields a single persisted row). -/
theorem c2_witness :
    (([storedTweetRow] : List TweetRecord).map TweetRecord.tweet_id).Nodup ∧
    (([sampleUserRow] : List UserRecord).map UserRecord.user_id).Nodup :=
  c2_one_row_per_key false false ⟨[storedTweetRow], [sampleUserRow]⟩
    [backlogTweetRow, backlogTweetRow] [sampleUserRow]
    ⟨[storedTweetRow], [sampleUserRow]⟩ rfl

/-! ### Claim C7 -/

/-- Claim C7: the final flush step performed on shutdown with an empty
backlog is a no-op — it leaves both persisted tables unchanged and raises
no error (the source skips the disk write entirely when
`max(len(backlog_tweets), len(backlog_users)) > 0` fails). -/
theorem c7_shutdown_empty_backlog_noop (faults : List (Bool × Bool))
    (st : StoreState) (f : Nat) :
    drain faults ⟨st, [], [], f⟩ = .ok ⟨st, [], [], f⟩ := by
  simp [drain]

/-! ### Claim C8 -/

/-- Claim C8: a raw event carrying a `retweeted_status` wrapper enqueues
exactly one status — the reshare target — and the record decoded from it
carries the target's id, never the wrapper's id. -/
theorem c8_reshare_target_id (q : List Status) (c : StatusCore) (rt : Status)
    (qs : Option Status) (h : c.id ≠ rt.core.id) :
    on_status q (Status.mk c (some rt) qs) = q ++ [rt] ∧
    (parse_tweet rt).1.tweet_id = rt.core.id ∧
    (parse_tweet rt).1.tweet_id ≠ c.id := by
  refine ⟨rfl, rfl, ?_⟩
  have hid : (parse_tweet rt).1.tweet_id = rt.core.id := rfl
  rw [hid]
  exact fun hEq => h hEq.symm

/-- Witness for C8: a concrete reshare wrapper (id 99) around the ordinary
status with id 1. -/
theorem c8_witness :
    on_status [] (Status.mk sampleCore99 (some sampleStatus) none) =
      [] ++ [sampleStatus] ∧
    (parse_tweet sampleStatus).1.tweet_id = sampleStatus.core.id ∧
    (parse_tweet sampleStatus).1.tweet_id ≠ sampleCore99.id :=
  c8_reshare_target_id [] sampleCore99 sampleStatus none (by decide)

/-! ### Claim C9 -/

/-- Claim C9: decoding a raw event whose optional owner attributes
(location, url, description) are all missing does not abort — `parse_tweet`
is total — and each missing attribute is replaced by the explicit sentinel
(Python `None`, modelled as `unknown_sentinel = none`) in the produced
record. -/
theorem c9_missing_optional_sentinel (s : Status)
    (hl : s.core.user.location = none)
    (hu : s.core.user.url = none)
    (hd : s.core.user.description = none) :
    (parse_tweet s).2.location = unknown_sentinel ∧
    (parse_tweet s).2.url = unknown_sentinel ∧
    (parse_tweet s).2.description = unknown_sentinel := by
  refine ⟨?_, ?_, ?_⟩ <;>
    simp [parse_tweet, unknown_sentinel, hl, hu, hd]

/-- Witness for C9: `sampleStatus`, whose raw user misses all three optional
attributes. -/
theorem c9_witness :
    (parse_tweet sampleStatus).2.location = unknown_sentinel ∧
    (parse_tweet sampleStatus).2.url = unknown_sentinel ∧
    (parse_tweet sampleStatus).2.description = unknown_sentinel :=
  c9_missing_optional_sentinel sampleStatus rfl rfl rfl

/-! ### Claim C4 -/

/-- Claim C4 counterexample: the claim says each decoded (typed) record is
what gets appended to the ingestion queue on delivery.  At the concrete
ordinary status `sampleStatus`, the item the source appends is the raw
status itself (`QItem.raw`), not the decoded record pair the spec describes
(`spec_enqueued_items`). -/
theorem c4_counterexample :
    enqueued_items sampleStatus ≠ spec_enqueued_items sampleStatus := by
  intro h
  have h1 : enqueued_items sampleStatus = [QItem.raw sampleStatus] := rfl
  have h2 : spec_enqueued_items sampleStatus =
      [QItem.decoded (parse_tweet sampleStatus).1
        (parse_tweet sampleStatus).2] := rfl
  rw [h1, h2] at h
  injection h with h3 h4
  exact QItem.noConfusion h3

/-- Claim C4 (amended): every item the delivery callback appends to the
ingestion queue is a raw (undecoded) status — the target for a reshare, the
wrapper and the target for a quote — and decoding to typed records happens
in the consumer loop when the item is dequeued, where `parse_tweet` is
applied and its result upserted into the backlog. -/
theorem c4_amended_raw_enqueue_decode_at_dequeue :
    (∀ s : Status, (enqueued_items s).all QItem.isRaw = true) ∧
    (∀ (sz : Nat) (st : StoreState) (s : Status), 2 ≤ sz →
      runRecords sz [] ⟨st, [], [], 0⟩ [s] =
        .ok ⟨st, [((parse_tweet s).1.tweet_id, (parse_tweet s).1)],
             [((parse_tweet s).2.user_id, (parse_tweet s).2)], 0⟩) := by
  constructor
  · intro s
    simp only [enqueued_items, List.all_map]
    simp [QItem.isRaw, Function.comp]
  · intro sz st s hsz
    rw [runRecords_cons]
    simp only
    have hc : ¬ (max (dictUpsert (parse_tweet s).1.tweet_id (parse_tweet s).1
        ([] : List (Nat × TweetRecord))).length
        (dictUpsert (parse_tweet s).2.user_id (parse_tweet s).2
          ([] : List (Nat × UserRecord))).length ≥ sz) := by
      simp [dictUpsert]
      omega
    rw [if_neg hc]
    rfl

/-- Witness for the amended C4 theorem at the concrete `sampleStatus` and
threshold 2. -/
theorem c4_amended_witness :
    (enqueued_items sampleStatus).all QItem.isRaw = true ∧
    runRecords 2 [] ⟨⟨[], []⟩, [], [], 0⟩ [sampleStatus] =
      .ok ⟨⟨[], []⟩,
           [((parse_tweet sampleStatus).1.tweet_id,
             (parse_tweet sampleStatus).1)],
           [((parse_tweet sampleStatus).2.user_id,
             (parse_tweet sampleStatus).2)], 0⟩ :=
  ⟨c4_amended_raw_enqueue_decode_at_dequeue.1 sampleStatus,
   c4_amended_raw_enqueue_decode_at_dequeue.2 2 ⟨[], []⟩ sampleStatus
     (by decide)⟩

/-! ### Claim C5 -/

/-- Claim C5: an I/O error raised by a flush propagates out of the consumer
loop and the loop terminates — the result of the whole run is that error,
whatever records remain queued (`rest` is arbitrary and never processed),
and the overall `process_loop` reports the same error. -/
theorem c5_io_error_propagates :
    (∀ (sz : Nat) (faults : List (Bool × Bool)) (st : StoreState)
       (bt : List (Nat × TweetRecord)) (bu : List (Nat × UserRecord))
       (f : Nat) (tw : Status) (rest : List Status),
      max (dictUpsert (parse_tweet tw).1.tweet_id (parse_tweet tw).1
            bt).length
          (dictUpsert (parse_tweet tw).2.user_id (parse_tweet tw).2
            bu).length ≥ sz →
      write_backlog_to_disk (faultAt faults f).1 (faultAt faults f).2 st
          ((dictUpsert (parse_tweet tw).1.tweet_id (parse_tweet tw).1
            bt).map Prod.snd)
          ((dictUpsert (parse_tweet tw).2.user_id (parse_tweet tw).2
            bu).map Prod.snd) = .error .ioError →
      runRecords sz faults ⟨st, bt, bu, f⟩ (tw :: rest) =
        .error .ioError) ∧
    (∀ (sz : Nat) (faults : List (Bool × Bool)) (st : StoreState)
       (inputs : List Status) (e : WriteError),
      runRecords sz faults ⟨st, [], [], 0⟩ inputs = .error e →
      process_loop sz faults st inputs = .error e) := by
  constructor
  · intro sz faults st bt bu f tw rest hth hflush
    rw [runRecords_cons]
    simp only
    rw [if_pos hth, hflush]
  · intro sz faults st inputs e h
    unfold process_loop
    rw [h]

/-- Witness for C5: threshold 1, a fault oracle failing the first tweet
write; the loop stops at the first record with `ioError` even though a
second record is queued behind it. -/
theorem c5_witness :
    runRecords 1 [(true, false)] ⟨⟨[], []⟩, [], [], 0⟩
        [sampleStatus, sampleStatus2] = .error .ioError ∧
    process_loop 1 [(true, false)] ⟨[], []⟩ [sampleStatus, sampleStatus2] =
      .error .ioError :=
  ⟨c5_io_error_propagates.1 1 [(true, false)] ⟨[], []⟩ [] [] 0 sampleStatus
      [sampleStatus2] (by decide) rfl,
   c5_io_error_propagates.2 1 [(true, false)] ⟨[], []⟩
      [sampleStatus, sampleStatus2] .ioError rfl⟩

/-! ### Claim C10 -/

/-- Claim C10: calling the flush routine with empty collections raises an
error (the `KeyError` from setting the key index on a frame built from an
empty collection), and this branch is unreachable from the writer loop —
both call sites flush only a non-empty backlog, so the only error the loop
can ever surface is an I/O error. -/
theorem c10_empty_flush_error_unreachable :
    (∀ (ioT ioU : Bool) (st : StoreState),
      write_backlog_to_disk ioT ioU st [] [] =
        .error (.keyError "tweet_id")) ∧
    (∀ (sz : Nat) (faults : List (Bool × Bool)) (st : StoreState)
       (inputs : List Status) (e : WriteError),
      process_loop sz faults st inputs = .error e → e = .ioError) := by
  constructor
  · intro ioT ioU st
    rfl
  · intro sz faults st inputs e h
    unfold process_loop at h
    split at h
    case _ e' heq =>
      injection h with h'
      subst h'
      exact runRecords_error_io sz faults inputs _ e' heq
    case _ s heq =>
      exact drain_error_io faults s e
        (runRecords_empty_iff sz faults inputs _ s heq (by simp)) h

/-- Witness for C10: the empty-collection flush errors concretely, and a
concrete failing run of the loop (fault oracle failing the first write)
surfaces `ioError`, never the unreachable `keyError`. -/
theorem c10_witness :
    write_backlog_to_disk false false ⟨[], []⟩ [] [] =
      .error (.keyError "tweet_id") ∧
    ∃ e, process_loop 2 [(false, true)] ⟨[], []⟩
        [sampleStatus, sampleStatus2] = .error e ∧ e = WriteError.ioError :=
  ⟨c10_empty_flush_error_unreachable.1 false false ⟨[], []⟩,
   WriteError.ioError, rfl,
   c10_empty_flush_error_unreachable.2 2 [(false, true)] ⟨[], []⟩
     [sampleStatus, sampleStatus2] WriteError.ioError rfl⟩

/-! ### Claim C3 -/

/-- Claim C3: stopping the writer while the backlog holds 2 records below
the flush threshold loses nothing — after the cooperative shutdown drain,
the persisted tweet table contains exactly the two decoded rows, in
submission order.  Starting from empty tables, two records with distinct
tweet ids are dequeued, no threshold flush fires (`2 < sz`), and the final
drain flush persists both. -/
theorem c3_stop_persists_pending_records (sz : Nat) (s1 s2 : Status)
    (hne : parseId s1 ≠ parseId s2) (hsz : 2 < sz) :
    ∃ userTable : List UserRecord,
      process_loop sz [] ⟨[], []⟩ [s1, s2] =
        .ok ⟨⟨[(parse_tweet s1).1, (parse_tweet s2).1], userTable⟩,
             [], [], 1⟩ := by
  have hnd : (([s1, s2] : List Status).map parseId).Nodup := by
    simp [List.nodup_cons, hne]
  obtain ⟨bu', hrun, hbulen, hzero⟩ :=
    runRecords_below sz [] [s1, s2] ⟨[], []⟩ [] [] 0 hnd (by simp)
      (by simp only [List.length_nil, List.length_cons]; omega) le_rfl
  simp only [List.nil_append, List.map_cons, List.map_nil] at hrun
  have hbune : bu' ≠ [] := by
    intro hbu
    obtain ⟨_, habs⟩ := hzero (by rw [hbu]; rfl)
    exact List.noConfusion habs
  have hbusne : bu'.map Prod.snd ≠ [] := by
    rw [ne_eq, List.map_eq_nil_iff]
    exact hbune
  refine ⟨mergeTable UserRecord.user_id [] (bu'.map Prod.snd), ?_⟩
  unfold process_loop
  rw [hrun]
  simp only
  unfold drain
  simp only
  rw [if_pos (by simp)]
  have hfa1 : (faultAt ([] : List (Bool × Bool)) 0).1 = false := rfl
  have hfa2 : (faultAt ([] : List (Bool × Bool)) 0).2 = false := rfl
  rw [hfa1, hfa2]
  have hflush := write_backlog_ok_of ⟨[], []⟩
    [(parse_tweet s1).1, (parse_tweet s2).1] (bu'.map Prod.snd)
    (by simp) hbusne
  have hmaps : ([(parseId s1, (parse_tweet s1).1),
      (parseId s2, (parse_tweet s2).1)] :
        List (Nat × TweetRecord)).map Prod.snd =
      [(parse_tweet s1).1, (parse_tweet s2).1] := rfl
  rw [hmaps, hflush]
  have hne' : (parse_tweet s2).1.tweet_id ≠ (parse_tweet s1).1.tweet_id :=
    fun hEq => hne hEq.symm
  have hmerge : mergeTable TweetRecord.tweet_id
      (StoreState.saved_tweet_data ⟨[], []⟩)
      [(parse_tweet s1).1, (parse_tweet s2).1] =
      [(parse_tweet s1).1, (parse_tweet s2).1] := by
    simp [mergeTable, drop_duplicates, dropDupAux, hne']
  rw [hmerge]

/-- Witness for C3 at two concrete statuses (ids 1 and 2) and threshold 5. -/
theorem c3_witness :
    ∃ userTable : List UserRecord,
      process_loop 5 [] ⟨[], []⟩ [sampleStatus, sampleStatus2] =
        .ok ⟨⟨[(parse_tweet sampleStatus).1, (parse_tweet sampleStatus2).1],
              userTable⟩, [], [], 1⟩ :=
  c3_stop_persists_pending_records 5 sampleStatus sampleStatus2 (by decide)
    (by decide)

/-! ### Claim C6 -/

/-- Claim C6: submitting exactly `backlog_sz` records with pairwise distinct
tweet ids triggers exactly one flush in the RUNNING phase itself (no
shutdown drain involved): after the first `backlog_sz - 1` records the
store is untouched and the flush counter is still 0 — the threshold check
has not fired — and after the last record the counter is 1 and both
backlogs are empty, so the next record would start a new backlog. -/
theorem c6_exactly_one_flush_at_threshold (sz : Nat) (st : StoreState)
    (inputs : List Status) (hlen : inputs.length = sz)
    (hnd : (inputs.map parseId).Nodup) (hsz : 1 ≤ sz) :
    ∃ store' : StoreState,
      runRecords sz [] ⟨st, [], [], 0⟩ inputs = .ok ⟨store', [], [], 1⟩ ∧
      ∃ bt bu, runRecords sz [] ⟨st, [], [], 0⟩ (inputs.take (sz - 1)) =
        .ok ⟨st, bt, bu, 0⟩ := by
  rcases List.eq_nil_or_concat inputs with rfl | ⟨ys, y, hconcat⟩
  · rw [List.length_nil] at hlen
    omega
  rw [List.concat_eq_append] at hconcat
  subst hconcat
  have hylen : ys.length + 1 = sz := by
    simpa using hlen
  rw [List.map_append] at hnd
  have hndy : (ys.map parseId).Nodup := hnd.of_append_left
  have hdisj : parseId y ∉ ys.map parseId := by
    rw [List.nodup_append] at hnd
    intro hmem
    exact hnd.2.2 hmem (by simp)
  obtain ⟨bu', hrun, hbulen, hzero⟩ :=
    runRecords_below sz [] ys st [] [] 0 hndy (by simp)
      (by simp only [List.length_nil]; omega) le_rfl
  simp only [List.nil_append] at hrun
  have hkeys : ((ys.map fun s => (parseId s, (parse_tweet s).1)).map
      Prod.fst) = ys.map parseId := by
    rw [List.map_map]
    rfl
  have hnotmem : (parse_tweet y).1.tweet_id ∉
      ((ys.map fun s => (parseId s, (parse_tweet s).1)).map Prod.fst) := by
    rw [hkeys]
    exact hdisj
  have hbt2 : dictUpsert (parse_tweet y).1.tweet_id (parse_tweet y).1
      (ys.map fun s => (parseId s, (parse_tweet s).1)) =
      (ys.map fun s => (parseId s, (parse_tweet s).1)) ++
        [((parse_tweet y).1.tweet_id, (parse_tweet y).1)] :=
    dictUpsert_not_mem _ _ _ hnotmem
  have hbt2len : (dictUpsert (parse_tweet y).1.tweet_id (parse_tweet y).1
      (ys.map fun s => (parseId s, (parse_tweet s).1))).length = sz := by
    rw [hbt2]
    simp
    omega
  have hcond : max (dictUpsert (parse_tweet y).1.tweet_id (parse_tweet y).1
      (ys.map fun s => (parseId s, (parse_tweet s).1))).length
      (dictUpsert (parse_tweet y).2.user_id (parse_tweet y).2 bu').length
      ≥ sz := by
    rw [hbt2len]
    exact Nat.le_max_left _ _
  have hbt2ne : ((dictUpsert (parse_tweet y).1.tweet_id (parse_tweet y).1
      (ys.map fun s => (parseId s, (parse_tweet s).1))).map
        Prod.snd) ≠ [] := by
    rw [ne_eq, List.map_eq_nil_iff]
    exact dictUpsert_ne_nil _ _ _
  have hbu2ne : ((dictUpsert (parse_tweet y).2.user_id (parse_tweet y).2
      bu').map Prod.snd) ≠ [] := by
    rw [ne_eq, List.map_eq_nil_iff]
    exact dictUpsert_ne_nil _ _ _
  have hflush := write_backlog_ok_of st
    ((dictUpsert (parse_tweet y).1.tweet_id (parse_tweet y).1
      (ys.map fun s => (parseId s, (parse_tweet s).1))).map Prod.snd)
    ((dictUpsert (parse_tweet y).2.user_id (parse_tweet y).2 bu').map
      Prod.snd) hbt2ne hbu2ne
  have hfa1 : (faultAt ([] : List (Bool × Bool)) 0).1 = false := rfl
  have hfa2 : (faultAt ([] : List (Bool × Bool)) 0).2 = false := rfl
  have htake : (ys ++ [y]).take (sz - 1) = ys := by
    have hlen' : sz - 1 = ys.length := by omega
    rw [hlen']
    exact List.take_left ys [y]
  refine ⟨⟨mergeTable TweetRecord.tweet_id st.saved_tweet_data
      ((dictUpsert (parse_tweet y).1.tweet_id (parse_tweet y).1
        (ys.map fun s => (parseId s, (parse_tweet s).1))).map Prod.snd),
    mergeTable UserRecord.user_id st.saved_user_data
      ((dictUpsert (parse_tweet y).2.user_id (parse_tweet y).2 bu').map
        Prod.snd)⟩, ?_, ?_⟩
  · rw [runRecords_append, hrun]
    simp only
    rw [runRecords_cons]
    simp only
    rw [if_pos hcond, hfa1, hfa2, hflush]
    simp only
    rw [runRecords_nil]
  · rw [htake]
    exact ⟨ys.map fun s => (parseId s, (parse_tweet s).1), bu', hrun⟩

/-- Witness for C6: two concrete statuses with distinct ids at threshold 2
flush exactly once during the RUNNING phase — no flush after the first
record, flush counter 1 and empty backlogs after the second. -/
theorem c6_witness :
    ∃ store' : StoreState,
      runRecords 2 [] ⟨⟨[], []⟩, [], [], 0⟩ [sampleStatus, sampleStatus2] =
        .ok ⟨store', [], [], 1⟩ ∧
      ∃ bt bu, runRecords 2 [] ⟨⟨[], []⟩, [], [], 0⟩
          ([sampleStatus, sampleStatus2].take (2 - 1)) =
        .ok ⟨⟨[], []⟩, bt, bu, 0⟩ :=
  c6_exactly_one_flush_at_threshold 2 ⟨[], []⟩ [sampleStatus, sampleStatus2]
    rfl (by decide) (by decide)

end RechazoMiner
